import Mathlib

/-!
# Verification of the blog static-site generator's build pipeline

Shallow embedding of the content-to-site build pipeline of the `sealye09/blog`
repository (the generator script shipped alongside `scripts/`): slug/path
derivation, front-matter normalization, template substitution, and the
archive/index aggregation, together with theorems about the specified
properties.

Modelling notes:
* JS strings are modelled as Lean `String`/`List Char`; machine-level
  stateful operations (file reads/writes) are made explicit inputs/outputs.
* The Unicode character classes `\p{Letter}` / `\p{Number}` used by the
  generator's regular expressions are modelled over the repertoires the
  program's documents actually use (ASCII plus the CJK blocks); `toLowerCase`
  is modelled by the ASCII case mapping (the CJK repertoire is caseless).
* `new Date(string)` parsing is modelled for ISO `YYYY-MM-DD` date strings
  (the format the corpus uses) with epoch-day arithmetic in UTC; any other
  string is treated as an unparseable date (JS `Invalid Date`).
-/

/-- The JS whitespace class `\s` (WhiteSpace + LineTerminator), by code
point: TAB..CR, SP, NBSP, OGHAM SP, U+2000..U+200A, LS, PS, NNBSP, MMSP,
IDEOGRAPHIC SP, BOM. -/
def jsIsSpace (c : Char) : Bool :=
  let n := c.toNat
  (9 ≤ n && n ≤ 13) || n = 32 || n = 0xa0 || n = 0x1680 ||
  (0x2000 ≤ n && n ≤ 0x200a) ||
  n = 0x2028 || n = 0x2029 || n = 0x202f || n = 0x205f ||
  n = 0x3000 || n = 0xfeff

/-- The class `[\s/\\]` of the first substitution in `sanitizeSlug`:
whitespace and path separators. -/
def jsIsSpaceSep (c : Char) : Bool :=
  jsIsSpace c || c.toNat = 47 || c.toNat = 92

/-- The Unicode `\p{Letter}` class of the generator's slug regex, modelled
over the repertoires relevant to the corpus: ASCII letters, CJK Unified
Ideographs (and extension A), Hiragana, Katakana, and Hangul syllables. -/
def jsIsLetter (c : Char) : Bool :=
  let n := c.toNat
  (97 ≤ n && n ≤ 122) || (65 ≤ n && n ≤ 90) ||
  (0x4e00 ≤ n && n ≤ 0x9fff) || (0x3400 ≤ n && n ≤ 0x4dbf) ||
  (0x3041 ≤ n && n ≤ 0x3096) || (0x30a1 ≤ n && n ≤ 0x30fa) ||
  (0xac00 ≤ n && n ≤ 0xd7a3)

/-- The Unicode `\p{Number}` class, modelled over ASCII digits and
fullwidth digits. -/
def jsIsNumber (c : Char) : Bool :=
  let n := c.toNat
  (48 ≤ n && n ≤ 57) || (0xff10 ≤ n && n ≤ 0xff19)

/-- A character of the slug regex's allowed class
`[\p{Letter}\p{Number}\-_.]`. -/
def isSlugChar (c : Char) : Bool :=
  jsIsLetter c || jsIsNumber c || c.toNat = 45 || c.toNat = 95 || c.toNat = 46

/-- JS `String.prototype.toLowerCase`, modelled by the ASCII case mapping
(the non-ASCII repertoire used by the corpus is caseless). -/
def jsToLower (c : Char) : Char :=
  if 65 ≤ c.toNat && c.toNat ≤ 90 then Char.ofNat (c.toNat + 32) else c

/-- Replace every maximal run of characters satisfying `p` by the single
character `r` (the semantics of `str.replace(/[class]+/g, r)`).  The flag
records whether the previous character was part of a run. -/
def replaceRunsAux (p : Char → Bool) (r : Char) : Bool → List Char → List Char
  | _, [] => []
  | inRun, c :: cs =>
    if p c then
      if inRun then replaceRunsAux p r true cs
      else r :: replaceRunsAux p r true cs
    else c :: replaceRunsAux p r false cs

/-- `str.replace(/[class]+/g, r)` for a single-character class predicate. -/
def replaceRuns (p : Char → Bool) (r : Char) (l : List Char) : List Char :=
  replaceRunsAux p r false l

/-- Drop the trailing characters satisfying `p`. -/
def dropTrailing (p : Char → Bool) (l : List Char) : List Char :=
  (l.reverse.dropWhile p).reverse

/-- JS `String.prototype.trim`: drop leading and trailing whitespace. -/
def jsTrim (l : List Char) : List Char :=
  dropTrailing jsIsSpace (l.dropWhile jsIsSpace)

/-- The generator's `sanitizeSlug`: trim, reject the empty string, lowercase,
turn whitespace/path-separator runs into `-`, turn runs of characters outside
`[\p{Letter}\p{Number}\-_.]` into `-`, collapse `-` runs, and strip leading
and trailing `-`. -/
def sanitizeSlug (s : String) : String :=
  let t := jsTrim s.data
  if t = [] then ""
  else
    String.mk
      (dropTrailing (fun c => c = '-')
        ((replaceRuns (fun c => c = '-') '-'
          (replaceRuns (fun c => !(isSlugChar c)) '-'
            (replaceRuns jsIsSpaceSep '-'
              (t.map jsToLower)))).dropWhile (fun c => c = '-')))

/-! ## String helpers (kernel-reducible replacements for `String.splitOn`
and `String.intercalate`, which JS `split`/`join` are modelled by) -/

/-- `s.split(sep)` for a single-character separator, keeping empty pieces
(the JS semantics); `"".split(sep)` is `[""]`. -/
def splitOnCharAux (sep : Char) : List Char → List (List Char)
  | [] => [[]]
  | c :: cs =>
    let acc := splitOnCharAux sep cs
    if c = sep then [] :: acc
    else
      match acc with
      | [] => [[c]]
      | g :: gs => (c :: g) :: gs

/-- `s.split(sep)` on strings. -/
def splitOnChar (sep : Char) (s : String) : List String :=
  (splitOnCharAux sep s.data).map String.mk

/-- `parts.join(sep)`. -/
def joinSep (sep : String) : List String → String
  | [] => ""
  | [x] => x
  | x :: xs => x ++ sep ++ joinSep sep xs

/-! ## Dates -/

/-- Digits of a decimal numeral to a `Nat`. -/
def digitsToNat (s : List Char) : Nat :=
  s.foldl (fun a c => a * 10 + (c.toNat - 48)) 0

/-- Gregorian leap year. -/
def isLeapYear (y : Nat) : Bool :=
  y % 4 = 0 && (y % 100 ≠ 0 || y % 400 = 0)

/-- Number of days of month `m` of year `y`. -/
def daysInMonth (y m : Nat) : Nat :=
  if m = 2 then (if isLeapYear y then 29 else 28)
  else if m = 4 || m = 6 || m = 9 || m = 11 then 30
  else 31

/-- `new Date(string)` / `dayjs(string)` parsing, modelled for ISO
`YYYY-MM-DD` date strings from the Unix epoch onward; anything else is an
unparseable date (`Invalid Date`, i.e. `none`). -/
def parseISODate (s : String) : Option (Nat × Nat × Nat) :=
  match splitOnChar '-' s with
  | [ys, ms, ds] =>
    if ys.length = 4 && ys.data.all Char.isDigit &&
       ms.length = 2 && ms.data.all Char.isDigit &&
       ds.length = 2 && ds.data.all Char.isDigit then
      let y := digitsToNat ys.data
      let m := digitsToNat ms.data
      let d := digitsToNat ds.data
      if 1970 ≤ y && 1 ≤ m && m ≤ 12 && 1 ≤ d && d ≤ daysInMonth y m then
        some (y, m, d)
      else none
    else none
  | _ => none

/-- Days since 1970-01-01 of a civil date (valid for `y ≥ 1970`), via the
Julian-day-number formula. -/
def daysSinceEpoch (y m d : Nat) : Nat :=
  let a := (14 - m) / 12
  let y2 := y + 4800 - a
  let m2 := m + 12 * a - 3
  d + (153 * m2 + 2) / 5 + 365 * y2 + y2 / 4 - y2 / 100 + y2 / 400 - 32045 - 2440588

/-- `new Date(s).getTime()` for a parseable ISO date string (UTC epoch
milliseconds). -/
def jsParseDateMs (s : String) : Option Nat :=
  (parseISODate s).map (fun ymd => daysSinceEpoch ymd.1 ymd.2.1 ymd.2.2 * 86400000)

/-- `(getFullYear, getMonth + 1)` of a timestamp given in days since the
epoch (UTC civil-from-days). -/
def civilFromDays (z : Nat) : Nat × Nat :=
  let z2 := z + 719468
  let era := z2 / 146097
  let doe := z2 % 146097
  let yoe := (doe - doe / 1460 + doe / 36524 - doe / 146096) / 365
  let y := yoe + era * 400
  let doy := doe - (365 * yoe + yoe / 4 - yoe / 100)
  let mp := (5 * doy + 2) / 153
  let m := if mp < 10 then mp + 3 else mp - 9
  (if m ≤ 2 then y + 1 else y, m)

/-- `String(n).padStart(2, "0")` for the month number. -/
def pad2 (n : Nat) : String :=
  if n < 10 then "0" ++ toString n else toString n

/-- `dayjs(s).format("YYYY-MM-DD")`: the formatted date, or `"Invalid Date"`
when `s` does not parse. -/
def dayjsFormatDate (s : String) : String :=
  match parseISODate s with
  | some (y, m, d) => toString y ++ "-" ++ pad2 m ++ "-" ++ pad2 d
  | none => "Invalid Date"

/-! ## Configuration (`scripts/config.ts`) -/

structure BlogConfig where
  FROM_DIR : String
  POSTS_DIR : String
  ASSETS_FROM : String
  USERNAME : String
  GITHUB_USERNAME : String
  GITHUB_REPO_NAME : String

/-- The repository's build configuration. -/
def config : BlogConfig :=
  { FROM_DIR := "__blogs"
    POSTS_DIR := "posts"
    ASSETS_FROM := "assets"
    USERNAME := "Seal"
    GITHUB_USERNAME := "sealye09"
    GITHUB_REPO_NAME := "blog" }

def OUT_DIR : String := config.GITHUB_USERNAME ++ ".github.io"

def GITHUB_REPO_URL : String :=
  "https://github.com/" ++ config.GITHUB_USERNAME ++ "/" ++ config.GITHUB_REPO_NAME

/-! ## Front matter and documents -/

/-- JS `a || b` on strings: the empty string is falsy. -/
def jsOr (a b : String) : String :=
  if a = "" then b else a

/-- The `tags` front-matter field may be a list or a delimited string
(`""` models an absent field, which is falsy). -/
inductive TagsField where
  | arr : List String → TagsField
  | str : String → TagsField
deriving Repr, DecidableEq

/-- A document's front-matter block as parsed by gray-matter. A missing
string field is modelled by `""` (both are falsy in the `||` chains that
consume them). -/
structure FrontMatter where
  slug : String := ""
  title : String := ""
  date : String := ""
  dateCreated : String := ""
  dateModified : String := ""
  tags : TagsField := .str ""
  summary : String := ""
  description : String := ""
deriving Repr, DecidableEq

/-- One source Markdown file: path, front matter, body, and file
modification time (epoch milliseconds). -/
structure DocInput where
  fileName : String
  fm : FrontMatter
  body : String
  mtimeMs : Nat
deriving Repr, DecidableEq

/-- `basename(p)`: the component after the last `/`. -/
def baseNameOf (p : String) : String :=
  String.mk ((p.data.reverse.takeWhile (fun c => c ≠ '/')).reverse)

/-- `basename(p, extname(p))`: the file name stem. A leading-dot file has
no extension. -/
def stemOf (p : String) : String :=
  let b := (baseNameOf p).data
  let afterDot := b.reverse.takeWhile (fun c => c ≠ '.')
  if afterDot.length = b.length then String.mk b
  else
    let stemLen := b.length - afterDot.length - 1
    if stemLen = 0 then String.mk b else String.mk (b.take stemLen)

/-- Split a string at runs of commas/whitespace and keep the nonempty
pieces: `String(meta.tags).split(/[\,\s]+/).filter(Boolean)`. -/
def splitTags (s : String) : List String :=
  ((s.data.foldr
      (fun c acc =>
        if c = ',' || jsIsSpace c then [] :: acc
        else
          match acc with
          | [] => [[c]]
          | g :: gs => (c :: g) :: gs)
      ([] : List (List Char))).filter (fun g => g ≠ [])).map String.mk

/-- The tag list produced by `normalizeMeta`. -/
def normalizeTags : TagsField → List String
  | .arr l => l
  | .str s => if s = "" then [] else splitTags s

/-- The normalized metadata record (`PostMeta` plus the extra date
fields). `""` models `null`/missing. -/
structure PostMeta where
  title : String
  date : String
  tags : List String
  summary : String
  dateCreated : String
  dateModified : String
deriving Repr, DecidableEq

/-- The generator's `normalizeMeta`: title defaults to the filename stem,
the primary date is `meta.date || meta["date created"] || meta["date
modified"] || null`, tags are normalized to a list, and the summary falls
back to `description`. -/
def normalizeMeta (meta : FrontMatter) (filePath : String) : PostMeta :=
  { title := jsOr meta.title (stemOf filePath)
    date := jsOr meta.date (jsOr meta.dateCreated meta.dateModified)
    tags := normalizeTags meta.tags
    summary := jsOr meta.summary meta.description
    dateCreated := jsOr meta.dateCreated meta.date
    dateModified := meta.dateModified }

/-! ## Slug and output-path derivation (`main`'s per-document block) -/

/-- `data.slug || meta.title || basename(file, extname(file))`. -/
def slugSourceOf (doc : DocInput) : String :=
  jsOr doc.fm.slug (jsOr (normalizeMeta doc.fm doc.fileName).title (stemOf doc.fileName))

/-- `sanitizeSlug(basename(file, extname(file))) || "post"`. -/
def fallbackSlugOf (doc : DocInput) : String :=
  jsOr (sanitizeSlug (stemOf doc.fileName)) "post"

/-- `sanitizeSlug(slugSource) || fallbackSlug`. -/
def deriveBaseSlug (doc : DocInput) : String :=
  jsOr (sanitizeSlug (slugSourceOf doc)) (fallbackSlugOf doc)

/-- The generator's effective-date block: `dateValue`/`year`/`month` come
from the normalized primary date when it parses to a nonzero timestamp, and
otherwise from the file's modification time. -/
def effectiveDate (doc : DocInput) : Nat × String × String :=
  let meta := normalizeMeta doc.fm doc.fileName
  let parsed : Nat × String × String :=
    if meta.date ≠ "" then
      match parseISODate meta.date with
      | some (y, m, d) => (daysSinceEpoch y m d * 86400000, toString y, pad2 m)
      | none => (0, "", "")
    else (0, "", "")
  if parsed.1 = 0 then
    let ym := civilFromDays (doc.mtimeMs / 86400000)
    (doc.mtimeMs, toString ym.1, pad2 ym.2)
  else parsed

/-- The numeric sort key `dateValue` of a document. -/
def effectiveDateValue (doc : DocInput) : Nat :=
  (effectiveDate doc).1

def yearOf (doc : DocInput) : String :=
  (effectiveDate doc).2.1

def monthOf (doc : DocInput) : String :=
  (effectiveDate doc).2.2

/-- `[year, month, baseSlug].filter(Boolean)`. -/
def slugSegments (doc : DocInput) : List String :=
  [yearOf doc, monthOf doc, deriveBaseSlug doc].filter (fun s => s ≠ "")

/-- `slugSegments.join("/")`. -/
def relativeSlugPath (doc : DocInput) : String :=
  joinSep "/" (slugSegments doc)

/-- The post page's output path below the output directory:
`join(postsDir, ...slugSegments.slice(0, -1), baseSlug + ".html")`. -/
def outRelPath (doc : DocInput) : String :=
  joinSep "/" (config.POSTS_DIR :: (slugSegments doc).dropLast) ++
    "/" ++ deriveBaseSlug doc ++ ".html"

/-- The post page's full output path `join(outDir, ...)`. -/
def outFilePath (doc : DocInput) : String :=
  OUT_DIR ++ "/" ++ outRelPath doc

/-! ## Template substitution (`renderTemplate`) -/

/-- JS values as they occur in the template contexts: strings, numbers,
booleans, plain objects, `null` and `undefined`. -/
inductive JSVal where
  | str : String → JSVal
  | num : Nat → JSVal
  | boolv : Bool → JSVal
  | obj : List (String × JSVal) → JSVal
  | nullv : JSVal
  | undefined : JSVal

/-- JS truthiness of a value. -/
def JSVal.truthy : JSVal → Bool
  | .str s => s ≠ ""
  | .num n => n ≠ 0
  | .boolv b => b
  | .obj _ => true
  | .nullv => false
  | .undefined => false

/-- Property lookup in an association-list object. -/
def lookupProp (kvs : List (String × JSVal)) (k : String) : Option JSVal :=
  match kvs with
  | [] => none
  | (k2, v) :: rest => if k2 = k then some v else lookupProp rest k

/-- JS property access `o[k]`: a missing property is `undefined`; a string
exposes `length`; other primitives have no own properties here. -/
def JSVal.getProp : JSVal → String → JSVal
  | .obj kvs, k => (lookupProp kvs k).getD .undefined
  | .str s, k => if k = "length" then .num s.length else .undefined
  | _, _ => .undefined

/-- JS `String(v)` for the values above. -/
def JSVal.jsToString : JSVal → String
  | .str s => s
  | .num n => toString n
  | .boolv b => if b then "true" else "false"
  | .obj _ => "[object Object]"
  | .nullv => "null"
  | .undefined => "undefined"

/-- The placeholder's dotted path reduced over the context:
`key.split(".").reduce((o, k) => (o ? o[k] : ""), vars)`. -/
def resolveVal (vars : List (String × JSVal)) (ks : List String) : JSVal :=
  ks.foldl (fun o k => if o.truthy then o.getProp k else .str "") (.obj vars)

/-- The replacement text for one placeholder:
`val == null ? "" : String(val)`. -/
def resolvePath (vars : List (String × JSVal)) (key : String) : String :=
  match resolveVal vars (splitOnChar '.' key) with
  | .undefined => ""
  | .nullv => ""
  | v => v.jsToString

/-- The character class `[\w.]` of the placeholder key. -/
def isWordDot (c : Char) : Bool :=
  (97 ≤ c.toNat && c.toNat ≤ 122) || (65 ≤ c.toNat && c.toNat ≤ 90) ||
  (48 ≤ c.toNat && c.toNat ≤ 57) || c = '_' || c = '.'

/-- Try to read one placeholder `{{\s*([\w.]+)\s*}}` at the head of the
character list; on success return the captured key and the characters after
the match. -/
def tryPlaceholder : List Char → Option (String × List Char)
  | '{' :: '{' :: rest =>
    let afterSp := rest.dropWhile jsIsSpace
    let key := afterSp.takeWhile isWordDot
    if key = [] then none
    else
      match (afterSp.dropWhile isWordDot).dropWhile jsIsSpace with
      | '}' :: '}' :: rest2 => some (String.mk key, rest2)
      | _ => none
  | _ => none

/-- One left-to-right substitution pass: at each position try to match a
placeholder; on a match emit the resolved value (without rescanning it) and
continue after the match, otherwise copy the character.  `fuel` bounds the
number of steps (a placeholder match always consumes at least four
characters, so `fuel = length` suffices); structural recursion on `fuel`
keeps the function kernel-reducible. -/
def renderChars (vars : List (String × JSVal)) : Nat → List Char → List Char
  | _, [] => []
  | 0, cs => cs
  | fuel + 1, c :: cs =>
    match tryPlaceholder (c :: cs) with
    | some (key, rest) => (resolvePath vars key).data ++ renderChars vars fuel rest
    | none => c :: renderChars vars fuel cs

/-- The generator's `renderTemplate`: a single non-recursive substitution
pass over `{{dotted.key}}` placeholders. -/
def renderTemplate (tpl : String) (vars : List (String × JSVal)) : String :=
  String.mk (renderChars vars tpl.data.length tpl.data)

/-! ## Archive entries and aggregation -/

/-- One per-document aggregation record (`ListEntry`). -/
structure ListEntry where
  slug : String
  title : String
  date : String
  url : String
  summary : String
  dateValue : Nat
deriving Repr, DecidableEq

/-- The entry pushed for a document at the end of the per-document loop. -/
def mkEntry (doc : DocInput) : ListEntry :=
  let meta := normalizeMeta doc.fm doc.fileName
  { slug := relativeSlugPath doc
    title := meta.title
    date := meta.date
    url := "./" ++ config.POSTS_DIR ++ "/" ++ relativeSlugPath doc ++ ".html"
    summary := meta.summary
    dateValue := effectiveDateValue doc }

/-- The archive loop's year key of an entry: skip when `entry.date` is
falsy, skip when `new Date(entry.date)` is invalid, else
`String(d.getFullYear())`. -/
def entryYearKey (e : ListEntry) : Option String :=
  if e.date = "" then none
  else
    match parseISODate e.date with
    | some ymd => some (toString ymd.1)
    | none => none

/-- Append `e` to the bucket of key `y` of an insertion-ordered map
(`Map.get(year).push(entry)`), creating the bucket at the end when absent
(`Map.set`). -/
def addToBucket (y : String) (e : ListEntry) :
    List (String × List ListEntry) → List (String × List ListEntry)
  | [] => [(y, [e])]
  | (k, v) :: rest =>
    if k = y then (k, v ++ [e]) :: rest else (k, v) :: addToBucket y e rest

/-- The `byYear` map of the archive builder: one pass over the entries,
skipping entries without a parseable date. -/
def byYearMap (entries : List ListEntry) : List (String × List ListEntry) :=
  entries.foldl
    (fun m e =>
      match entryYearKey e with
      | none => m
      | some y => addToBucket y e m)
    []

/-- Stable insertion into a descending-sorted list (the element being
inserted goes after strictly greater keys and before equal ones, matching a
stable JS `sort` with comparator `(a, b) => key(b) - key(a)`). -/
def insertDescBy {α : Type} (key : α → Nat) (x : α) : List α → List α
  | [] => [x]
  | y :: ys => if key x < key y then y :: insertDescBy key x ys else x :: y :: ys

/-- Stable sort, descending by `key`. -/
def sortDescBy {α : Type} (key : α → Nat) (l : List α) : List α :=
  l.foldr (insertDescBy key) []

/-- `Number(s)` on the year-key strings produced by the archive builder
(decimal numerals). -/
def yearNum (s : String) : Nat :=
  digitsToNat s.data

/-- The archive's year groups: the `byYear` buckets with the years sorted
descending (`Number(b) - Number(a)`) and each bucket sorted descending by
`dateValue`. -/
def archiveGroups (entries : List ListEntry) : List (String × List ListEntry) :=
  (sortDescBy (fun g => yearNum g.1) (byYearMap entries)).map
    (fun g => (g.1, sortDescBy (fun e => e.dateValue) g.2))

/-- One `<a class="archive-item">` block. -/
def renderArchiveItem (e : ListEntry) : String :=
  "    <a href=\"" ++ e.url ++ "\" class=\"archive-item\">\n" ++
  "      <span class=\"archive-item__date\">" ++ dayjsFormatDate e.date ++ "</span>\n" ++
  "      <div class=\"archive-item__title\">" ++ e.title ++ "</div>\n" ++
  "    </a>\n"

/-- One `<div class="archive-year">` block, with the count badge
`(${posts.length})` in the title. -/
def renderArchiveGroup (g : String × List ListEntry) : String :=
  "<div class=\"archive-year\">\n" ++
  "  <h2 class=\"archive-year__title\">" ++ g.1 ++
    " <span class=\"archive-year__count\">(" ++ toString g.2.length ++ ")</span></h2>\n" ++
  "  <div class=\"archive-list\">\n" ++
  String.join (g.2.map renderArchiveItem) ++
  "  </div>\n" ++
  "</div>\n"

/-- The generator's `buildArchiveGroups`: the concatenated rendering of the
year groups. -/
def buildArchiveGroups (entries : List ListEntry) : String :=
  String.join ((archiveGroups entries).map renderArchiveGroup)

/-- One index-listing item (the template literal of `itemsHtml`). -/
def renderIndexItem (e : ListEntry) : String :=
  "\n    <a href=\"" ++ e.url ++ "\" class=\"post-item\">\n      <h2 class=\"post-title\">" ++
  e.title ++ "</h2>\n      " ++
  (if e.date ≠ "" then
    "<time class=\"post-date\">" ++ dayjsFormatDate e.date ++ "</time>"
   else "") ++
  "\n      " ++
  (if e.summary ≠ "" then "<p class=\"post-summary\">" ++ e.summary ++ "</p>" else "") ++
  "\n      <span class=\"post-readmore\">阅读全文 →</span>\n    </a>\n  " 

/-- `itemsHtml`: every entry of the (sorted) list rendered and joined. -/
def indexItemsHtml (entries : List ListEntry) : String :=
  joinSep "\n" (entries.map renderIndexItem)

/-- `post.url.replace("./", "")`: drop the first occurrence of `./`. -/
def dropFirstDotSlash : List Char → List Char
  | [] => []
  | '.' :: '/' :: rest => rest
  | c :: cs => c :: dropFirstDotSlash cs

/-- One README list line. -/
def readmeItem (siteUrl : String) (e : ListEntry) : String :=
  "- [" ++ e.title ++ "](" ++ siteUrl ++ "/" ++ String.mk (dropFirstDotSlash e.url.data) ++
  ") - " ++ dayjsFormatDate e.date ++ "\n"

/-- The generator's `buildReadmeContent`: header, a "no posts" placeholder
(`暂无文章`) for an empty corpus or the year-grouped listing (the same
grouping/sorting as the archive), and a footer. -/
def buildReadmeContent (entries : List ListEntry) : String :=
  let siteUrl := "https://" ++ config.GITHUB_USERNAME ++ ".github.io"
  let header :=
    "# " ++ config.USERNAME ++ "\x27s Blog\n\n" ++
    "🌐 **站点地址**: [" ++ siteUrl ++ "](" ++ siteUrl ++ ")\n\n" ++
    "## 📝 文章列表\n\n"
  let listing :=
    if entries.length = 0 then "暂无文章\n\n"
    else
      String.join
        ((sortDescBy (fun g => yearNum g.1) (byYearMap entries)).map
          (fun g =>
            "### " ++ g.1 ++ "\n\n" ++
            String.join
              ((sortDescBy (fun e => e.dateValue) g.2).map (readmeItem siteUrl)) ++
            "\n"))
  header ++ listing ++ "---\n\n" ++
    "📦 本站由 [静态博客生成器](" ++ GITHUB_REPO_URL ++ ") 构建\n"


/-! ## Page composition (`main`) -/

/-- `buildCssLinks`. -/
def buildCssLinks (basePath pageType : String) : String :=
  "<link rel=\"stylesheet\" href=\"" ++ basePath ++ "/assets/common.css\" />" ++
  "\n    " ++
  "<link rel=\"stylesheet\" href=\"" ++ basePath ++ "/assets/" ++ pageType ++ ".css\" />"

/-- `buildBasePath`: `Array(max(depth + 1, 1)).fill("..").join("/")`. -/
def buildBasePath (directoryDepth : Nat) : String :=
  joinSep "/" (List.replicate (max (directoryDepth + 1) 1) "..")

/-- The `dateHtml` post-meta block of the per-document loop. -/
def dateHtmlOf (meta : PostMeta) : String :=
  if meta.title ≠ "" || meta.dateCreated ≠ "" || meta.dateModified ≠ "" ||
     meta.tags.length > 0 || meta.summary ≠ "" then
    "<div class=\"post-meta\">" ++
    (if meta.title ≠ "" then "<h1 class=\"post-title\">" ++ meta.title ++ "</h1>" else "") ++
    (if meta.tags.length > 0 then
      "<div class=\"post-meta__item post-meta__tags\"><span class=\"post-meta__label\">标签：</span><div class=\"post-tags\">" ++
      String.join (meta.tags.map (fun t => "<span class=\"post-tag\">" ++ t ++ "</span>")) ++
      "</div></div>"
     else "") ++
    (if meta.summary ≠ "" then
      "<div class=\"post-meta__item post-meta__summary\"><span class=\"post-meta__label\">摘要：</span><span class=\"post-summary-text\">" ++
      meta.summary ++ "</span></div>"
     else "") ++
    (if meta.dateCreated ≠ "" then
      "<div class=\"post-meta__item\"><span class=\"post-meta__label\">创建日期：</span><time>" ++
      dayjsFormatDate meta.dateCreated ++ "</time></div>"
     else "") ++
    (if meta.dateModified ≠ "" then
      "<div class=\"post-meta__item\"><span class=\"post-meta__label\">修改日期：</span><time>" ++
      dayjsFormatDate meta.dateModified ++ "</time></div>"
     else "") ++
    "</div>"
  else ""

/-- Hex digit of `n < 16` (lowercase, as in `\u00XX` escapes). -/
def hexDigit (n : Nat) : Char :=
  if n < 10 then Char.ofNat (48 + n) else Char.ofNat (87 + n)

/-- JSON string-character escaping. -/
def jsonEscapeChar (c : Char) : List Char :=
  if c = '"' then ['\\', '"']
  else if c = '\\' then ['\\', '\\']
  else if c = '\n' then ['\\', 'n']
  else if c = '\t' then ['\\', 't']
  else if c = '\r' then ['\\', 'r']
  else if c.toNat < 32 then
    ['\\', 'u', '0', '0', hexDigit (c.toNat / 16), hexDigit (c.toNat % 16)]
  else [c]

/-- A JSON string literal. -/
def jsonStr (s : String) : String :=
  "\"" ++ String.mk (s.data.map jsonEscapeChar).flatten ++ "\""

/-- A JSON string array at indent 2 of `JSON.stringify(..., null, 2)`. -/
def jsonStrArray (l : List String) : String :=
  if l = [] then "[]"
  else "[\n" ++ joinSep ",\n" (l.map (fun t => "    " ++ jsonStr t)) ++ "\n  ]"

/-- `JSON.stringify({ ...meta, slug, year, month }, null, 2)`: the embedded
machine-readable metadata blob.  A `""` extra date field models an
`undefined` property, which `JSON.stringify` omits; the primary `date` is
serialized as `null` when missing. -/
def metadataJson (meta : PostMeta) (slug year month : String) : String :=
  "\x7b\n" ++
  joinSep ",\n"
    (("  \"title\": " ++ jsonStr meta.title) ::
     ("  \"date\": " ++ (if meta.date = "" then "null" else jsonStr meta.date)) ::
     ("  \"tags\": " ++ jsonStrArray meta.tags) ::
     ("  \"summary\": " ++ jsonStr meta.summary) ::
     ((if meta.dateCreated ≠ "" then
        ["  \"dateCreated\": " ++ jsonStr meta.dateCreated]
       else []) ++
      (if meta.dateModified ≠ "" then
        ["  \"dateModified\": " ++ jsonStr meta.dateModified]
       else []) ++
      ["  \"slug\": " ++ jsonStr slug,
       "  \"year\": " ++ (if year = "" then jsonStr "" else jsonStr year),
       "  \"month\": " ++ (if month = "" then jsonStr "" else jsonStr month)])) ++
  "\n\x7d"

/-- The five HTML templates read from `templates/` (inputs of the build). -/
structure Templates where
  base : String
  post : String
  index : String
  archive : String
  err404 : String

/-- The base-template context shared by every page, with the page-specific
fields passed in. -/
def baseCtx (env pageTitle pageDescription pageKeywords ogType pageUrl basePath
    content cssLinks : String) : List (String × JSVal) :=
  [("pageTitle", .str pageTitle),
   ("pageDescription", .str pageDescription),
   ("pageKeywords", .str pageKeywords),
   ("siteAuthor", .str config.USERNAME),
   ("baiduVerification", .str env),
   ("ogType", .str ogType),
   ("pageUrl", .str pageUrl),
   ("twitterCreator", .str ("@" ++ config.GITHUB_USERNAME)),
   ("siteDescription", .str (config.USERNAME ++ "\x27s Blog - 分享技术见解和编程经验")),
   ("siteUrl", .str ("https://" ++ config.GITHUB_USERNAME ++ ".github.io")),
   ("basePath", .str basePath),
   ("content", .str content),
   ("siteTitle", .str (config.USERNAME ++ "\x27s Blog")),
   ("githubUsername", .str config.GITHUB_USERNAME),
   ("cssLinks", .str cssLinks)]

/-- The full HTML of one post page (`postHtml` embedded into the base
template), with the Markdown renderer passed in as the external
collaborator it is. -/
def postPageHtml (mdRender : String → String) (tpls : Templates) (env : String)
    (doc : DocInput) : String :=
  let meta := normalizeMeta doc.fm doc.fileName
  let postHtml :=
    renderTemplate tpls.post
      [("title", .str meta.title),
       ("dateHtml", .str (dateHtmlOf meta)),
       ("content", .str (mdRender doc.body)),
       ("metadata",
        .str (metadataJson meta (relativeSlugPath doc) (yearOf doc) (monthOf doc)))]
  let basePath := buildBasePath (max ((slugSegments doc).length - 1) 0)
  renderTemplate tpls.base
    (baseCtx env meta.title
      (jsOr meta.summary (meta.title ++ " - " ++ config.USERNAME ++ "\x27s Blog"))
      (jsOr (joinSep ", " meta.tags) "技术,博客,编程")
      "article"
      ("https://" ++ config.GITHUB_USERNAME ++ ".github.io/" ++ config.POSTS_DIR ++
        "/" ++ relativeSlugPath doc ++ ".html")
      basePath postHtml (buildCssLinks basePath "post"))

/-- The full HTML of the index page over the sorted entries. -/
def indexPageHtml (tpls : Templates) (env : String) (entries : List ListEntry) :
    String :=
  let indexHtml := renderTemplate tpls.index [("items", .str (indexItemsHtml entries))]
  renderTemplate tpls.base
    (baseCtx env (config.USERNAME ++ " - 博客首页")
      (config.USERNAME ++ "的个人技术博客，分享编程经验和见解")
      "技术,博客,编程,前端,后端" "website"
      ("https://" ++ config.GITHUB_USERNAME ++ ".github.io")
      "." indexHtml (buildCssLinks "." "index"))

/-- The full HTML of the archive page over the sorted entries. -/
def archivePageHtml (tpls : Templates) (env : String) (entries : List ListEntry) :
    String :=
  let archiveHtml :=
    renderTemplate tpls.archive [("groups", .str (buildArchiveGroups entries))]
  renderTemplate tpls.base
    (baseCtx env ("归档 - " ++ config.USERNAME)
      (config.USERNAME ++ "的博客归档页面，按时间顺序查看所有文章")
      "归档,博客,文章列表" "website"
      ("https://" ++ config.GITHUB_USERNAME ++ ".github.io/archive.html")
      "." archiveHtml (buildCssLinks "." "archive"))

/-- The full HTML of the 404 page. -/
def page404Html (tpls : Templates) (env : String) : String :=
  let error404Html := renderTemplate tpls.err404 [("basePath", .str ".")]
  renderTemplate tpls.base
    (baseCtx env "404 - 页面未找到" "抱歉，您访问的页面不存在"
      "404,页面未找到,错误页面" "website"
      ("https://" ++ config.GITHUB_USERNAME ++ ".github.io/404.html")
      "." error404Html (buildCssLinks "." "404"))

/-- The whole build pipeline as a function from its inputs (the Markdown
renderer, the five templates, the `BAIDU_VERIFICATION` environment value
and the document list, already in sorted filename order) to the list of
written files as `(path, content)` pairs, in write order. -/
def buildSite (mdRender : String → String) (tpls : Templates) (env : String)
    (docs : List DocInput) : List (String × String) :=
  let entries := sortDescBy (fun e => e.dateValue) (docs.map mkEntry)
  (docs.map (fun d => (outFilePath d, postPageHtml mdRender tpls env d))) ++
  [(OUT_DIR ++ "/index.html", indexPageHtml tpls env entries),
   (OUT_DIR ++ "/archive.html", archivePageHtml tpls env entries),
   (OUT_DIR ++ "/404.html", page404Html tpls env),
   (OUT_DIR ++ "/README.md", buildReadmeContent entries)]

/-! ## Spec-modelled templates

The `templates/` directory of the repository is read by the build script but
is not among the provided sources, so its contents are modelled from the
spec where a claim depends on them. -/

/-- Modelled from the spec: `templates/index.html` is not under `src/`
(only the build script that reads it is).  Per the spec, "the listing
renders an explicit "no posts" message rather than an empty fragment", so
the modelled listing template carries an explicit no-posts placeholder
element (`暂无文章`) alongside the `{{items}}` slot. -/
def indexTplModel : String :=
  "<section class=\"post-list\">{{items}}<div class=\"no-posts\">暂无文章</div></section>"

/-- Modelled from the spec: the base (head/nav/footer) shell template is
not under `src/`; per the spec it embeds the already-rendered inner page
into its `content` placeholder. -/
def baseTplModel : String :=
  "<!doctype html><html><head><title>{{pageTitle}}</title>{{cssLinks}}</head><body>{{content}}</body></html>"

/-- Modelled from the spec: the archive shell template, with the year
groups substituted into its `groups` placeholder. -/
def archiveTplModel : String :=
  "<main class=\"archive\">{{groups}}</main>"

/-- Modelled from the spec: the post and 404 templates (their exact markup
is irrelevant to the claims; each consumes the context built for it). -/
def postTplModel : String :=
  "<article>{{dateHtml}}{{content}}</article><script type=\"application/json\">{{metadata}}</script>"

def err404TplModel : String :=
  "<div class=\"error\"><a href=\"{{basePath}}/index.html\">404</a></div>"

/-- The template record used when evaluating the pipeline on concrete
inputs. -/
def tplsModel : Templates :=
  { base := baseTplModel
    post := postTplModel
    index := indexTplModel
    archive := archiveTplModel
    err404 := err404TplModel }

/-- The slug computation as the spec words it, for comparison: identical to
`sanitizeSlug` except that characters outside the allowed class are
*stripped* (deleted) instead of being replaced by hyphens. -/
def sanitizeSlugStripPunct (s : String) : String :=
  let t := jsTrim s.data
  if t = [] then ""
  else
    String.mk
      (dropTrailing (fun c => c = '-')
        ((replaceRuns (fun c => c = '-') '-'
          ((replaceRuns jsIsSpaceSep '-' (t.map jsToLower)).filter isSlugChar)).dropWhile
          (fun c => c = '-')))

/-- Bucket lookup in the insertion-ordered year map. -/
def lookupBucket (m : List (String × List ListEntry)) (y : String) :
    Option (List ListEntry) :=
  match m with
  | [] => none
  | (k, v) :: rest => if k = y then some v else lookupBucket rest y

/-! ## Concrete example documents (used by counterexamples and witnesses) -/

/-- First of two documents titled `"Test"` with the same date. -/
def testDocA : DocInput :=
  { fileName := "__blogs/a.md", fm := { title := "Test", date := "2025-03-05" },
    body := "", mtimeMs := 1700000000000 }

/-- Second of two documents titled `"Test"` with the same date. -/
def testDocB : DocInput :=
  { fileName := "__blogs/b.md", fm := { title := "Test", date := "2025-03-05" },
    body := "", mtimeMs := 1700000000000 }

/-- The spec's `"Hello World!"` scenario document. -/
def helloDoc : DocInput :=
  { fileName := "__blogs/hello.md",
    fm := { title := "Hello World!", date := "2025-03-05" },
    body := "", mtimeMs := 1700000000000 }

/-- A document whose title and filename stem are punctuation only. -/
def punctDoc : DocInput :=
  { fileName := "__blogs/!!!.md", fm := { title := "!!!" },
    body := "", mtimeMs := 1700000000000 }

/-- A document carrying only a `date modified` metadata field, with a file
modification time (1 second past the epoch) that denotes a different
moment. -/
def dmOnlyDoc : DocInput :=
  { fileName := "__blogs/note.md", fm := { dateModified := "2020-05-06" },
    body := "", mtimeMs := 1000 }

/-- An archive entry with a parseable date. -/
def exEntryGood : ListEntry :=
  { slug := "2024/01/a", title := "A", date := "2024-01-02",
    url := "./posts/2024/01/a.html", summary := "", dateValue := 10 }

/-- An archive entry whose date does not parse. -/
def exEntryBad : ListEntry :=
  { slug := "x", title := "B", date := "not-a-date",
    url := "./posts/x.html", summary := "", dateValue := 20 }

/-! ## Character-class facts -/

theorem toNat_ofNat_of_lt {n : Nat} (h : n < 55296) : (Char.ofNat n).toNat = n := by
  have hv : n.isValidChar := Or.inl h
  simp [Char.ofNat, hv]
  rfl

theorem jsToLower_toNat (c : Char) :
    (jsToLower c).toNat = if 65 ≤ c.toNat && c.toNat ≤ 90 then c.toNat + 32 else c.toNat := by
  unfold jsToLower
  by_cases h : (65 ≤ c.toNat && c.toNat ≤ 90) = true
  · rw [if_pos h, if_pos h]
    have hle : c.toNat ≤ 90 := by
      simp only [Bool.and_eq_true, decide_eq_true_eq] at h
      exact h.2
    exact toNat_ofNat_of_lt (by omega)
  · rw [if_neg h, if_neg h]

theorem jsToLower_idem (c : Char) : jsToLower (jsToLower c) = jsToLower c := by
  unfold jsToLower
  by_cases h : (65 ≤ c.toNat && c.toNat ≤ 90) = true
  · rw [if_pos h]
    simp only [Bool.and_eq_true, decide_eq_true_eq] at h
    have h2 : (Char.ofNat (c.toNat + 32)).toNat = c.toNat + 32 :=
      toNat_ofNat_of_lt (by omega)
    rw [if_neg]
    simp only [h2, Bool.and_eq_true, decide_eq_true_eq, not_and]
    omega
  · rw [if_neg h, if_neg h]

theorem space_not_slugChar {c : Char} (h : jsIsSpace c = true) : isSlugChar c = false := by
  rw [Bool.eq_false_iff]
  intro hc
  simp only [jsIsSpace, Bool.or_eq_true, Bool.and_eq_true, decide_eq_true_eq] at h
  simp only [isSlugChar, jsIsLetter, jsIsNumber, Bool.or_eq_true, Bool.and_eq_true,
    decide_eq_true_eq] at hc
  omega

theorem slugChar_not_spaceSep {c : Char} (h : isSlugChar c = true) :
    jsIsSpaceSep c = false := by
  rw [Bool.eq_false_iff]
  intro hc
  simp only [isSlugChar, jsIsLetter, jsIsNumber, Bool.or_eq_true, Bool.and_eq_true,
    decide_eq_true_eq] at h
  simp only [jsIsSpaceSep, jsIsSpace, Bool.or_eq_true, Bool.and_eq_true,
    decide_eq_true_eq] at hc
  omega

theorem slugChar_not_space {c : Char} (h : isSlugChar c = true) : jsIsSpace c = false := by
  have h2 := slugChar_not_spaceSep h
  simp only [jsIsSpaceSep, Bool.or_eq_false_iff] at h2
  exact h2.1.1

/-! ## `replaceRuns` facts -/

theorem mem_replaceRunsAux {p : Char → Bool} {r c : Char} {l : List Char} :
    ∀ {b : Bool}, c ∈ replaceRunsAux p r b l → c = r ∨ (c ∈ l ∧ p c = false) := by
  induction l with
  | nil => intro b h; simp [replaceRunsAux] at h
  | cons x xs ih =>
    intro b h
    simp only [replaceRunsAux] at h
    split at h
    · split at h
      · rcases ih h with h1 | ⟨h2, h3⟩
        · exact Or.inl h1
        · exact Or.inr ⟨List.mem_cons_of_mem _ h2, h3⟩
      · rcases List.mem_cons.mp h with h1 | h1
        · exact Or.inl h1
        · rcases ih h1 with h2 | ⟨h3, h4⟩
          · exact Or.inl h2
          · exact Or.inr ⟨List.mem_cons_of_mem _ h3, h4⟩
    · rename_i hp
      rcases List.mem_cons.mp h with h1 | h1
      · subst h1
        exact Or.inr ⟨List.mem_cons_self _ _, Bool.not_eq_true _ ▸ hp⟩
      · rcases ih h1 with h2 | ⟨h3, h4⟩
        · exact Or.inl h2
        · exact Or.inr ⟨List.mem_cons_of_mem _ h3, h4⟩

theorem replaceRunsAux_id {p : Char → Bool} {r : Char} {l : List Char}
    (h : ∀ c ∈ l, p c = false) : ∀ b, replaceRunsAux p r b l = l := by
  induction l with
  | nil => intro b; rfl
  | cons x xs ih =>
    intro b
    have hx : p x = false := h x (List.mem_cons_self _ _)
    simp [replaceRunsAux, hx, ih (fun c hc => h c (List.mem_cons_of_mem _ hc))]

theorem replaceRunsAux_head_true {p : Char → Bool} {r x : Char} :
    ∀ {l : List Char}, (replaceRunsAux p r true l).head? = some x → p x = false := by
  intro l
  induction l with
  | nil => intro h; simp [replaceRunsAux] at h
  | cons y ys ih =>
    intro h
    simp only [replaceRunsAux] at h
    split at h
    · exact ih h
    · rename_i hp
      simp only [List.head?_cons, Option.some.injEq] at h
      subst h
      exact Bool.not_eq_true _ ▸ hp

theorem chain'_replaceRunsAux {p : Char → Bool} {r : Char} (hr : p r = true)
    (l : List Char) :
    ∀ b, List.Chain' (fun a c => ¬(a = r ∧ c = r)) (replaceRunsAux p r b l) := by
  induction l with
  | nil => intro b; simp [replaceRunsAux]
  | cons y ys ih =>
    intro b
    simp only [replaceRunsAux]
    split
    · split
      · exact ih true
      · rw [List.chain'_cons']
        refine ⟨?_, ih true⟩
        intro z hz ⟨_, hzr⟩
        have hpz : p z = false := replaceRunsAux_head_true hz
        rw [hzr, hr] at hpz
        exact Bool.true_eq_false ▸ hpz
    · rename_i hp
      rw [List.chain'_cons']
      refine ⟨?_, ih false⟩
      intro z hz ⟨hyr, _⟩
      rw [hyr] at hp
      exact hp hr

theorem replaceRunsAux_true_eq_false {p : Char → Bool} {r : Char} :
    ∀ {l : List Char}, (∀ x, l.head? = some x → p x = false) →
      replaceRunsAux p r true l = replaceRunsAux p r false l
  | [], _ => rfl
  | x :: _, h => by simp [replaceRunsAux, h x rfl]

theorem replaceRuns_id_of_chain' {l : List Char}
    (h : List.Chain' (fun a c => ¬(a = '-' ∧ c = '-')) l) :
    replaceRuns (fun c => c = '-') '-' l = l := by
  induction l with
  | nil => rfl
  | cons x xs ih =>
    rw [List.chain'_cons'] at h
    obtain ⟨hhd, htl⟩ := h
    show replaceRunsAux _ _ false _ = _
    rw [replaceRunsAux]
    by_cases hx : x = '-'
    · subst hx
      rw [if_pos (by simp), if_neg (by simp)]
      have hxs : ∀ z, xs.head? = some z → (decide (z = '-')) = false := by
        intro z hz
        simp only [decide_eq_false_iff_not]
        intro hz2
        exact hhd z hz ⟨rfl, hz2⟩
      rw [replaceRunsAux_true_eq_false hxs]
      exact congrArg (List.cons '-') (ih htl)
    · rw [if_neg (by simp [hx])]
      exact congrArg (List.cons x) (ih htl)

/-! ## `dropTrailing` facts -/

theorem dropTrailing_append (p : Char → Bool) (l : List Char) :
    ∃ t, l = dropTrailing p l ++ t := by
  refine ⟨(l.reverse.takeWhile p).reverse, ?_⟩
  unfold dropTrailing
  conv_lhs =>
    rw [← List.reverse_reverse l,
      ← List.takeWhile_append_dropWhile (p := p) (l := l.reverse)]
  rw [List.reverse_append]

theorem mem_of_mem_dropTrailing {p : Char → Bool} {l : List Char} {c : Char}
    (h : c ∈ dropTrailing p l) : c ∈ l := by
  obtain ⟨t, ht⟩ := dropTrailing_append p l
  rw [ht]
  exact List.mem_append_left _ h

theorem head?_dropTrailing {p : Char → Bool} {l : List Char} {x : Char}
    (h : (dropTrailing p l).head? = some x) : l.head? = some x := by
  obtain ⟨t, ht⟩ := dropTrailing_append p l
  rw [ht]
  cases hdt : dropTrailing p l with
  | nil => rw [hdt] at h; simp at h
  | cons y ys => rw [hdt] at h; simp at h; simp [h]

theorem getLast?_dropTrailing_false {p : Char → Bool} {l : List Char} {x : Char}
    (h : (dropTrailing p l).getLast? = some x) : p x = false := by
  unfold dropTrailing at h
  rw [List.getLast?_reverse] at h
  have := List.head?_dropWhile_not p l.reverse
  rw [h] at this
  simpa using this

/-! ## The `sanitizeSlug` shape invariant -/

theorem slug_list_chars {t : List Char} {c : Char}
    (h : c ∈ dropTrailing (fun c => c = '-')
      ((replaceRuns (fun c => c = '-') '-'
        (replaceRuns (fun c => !(isSlugChar c)) '-'
          (replaceRuns jsIsSpaceSep '-' (t.map jsToLower)))).dropWhile (fun c => c = '-'))) :
    isSlugChar c = true ∧ jsToLower c = c := by
  have h4 : c ∈ replaceRuns (fun c => c = '-') '-'
      (replaceRuns (fun c => !(isSlugChar c)) '-'
        (replaceRuns jsIsSpaceSep '-' (t.map jsToLower))) :=
    (List.dropWhile_suffix _).mem (mem_of_mem_dropTrailing h)
  rcases mem_replaceRunsAux h4 with hc | ⟨h3, _⟩
  · subst hc
    exact ⟨by decide, by decide⟩
  · rcases mem_replaceRunsAux h3 with hc | ⟨h2, hslug⟩
    · subst hc
      exact ⟨by decide, by decide⟩
    · have hslug2 : isSlugChar c = true := by
        cases hval : isSlugChar c with
        | true => rfl
        | false => rw [hval] at hslug; simp at hslug
      refine ⟨hslug2, ?_⟩
      rcases mem_replaceRunsAux h2 with hc | ⟨h1, _⟩
      · subst hc; decide
      · obtain ⟨c0, _, hc0⟩ := List.mem_map.mp h1
        rw [← hc0]
        exact jsToLower_idem c0

theorem chain'_flip_of_symm {l : List Char}
    (h : List.Chain' (fun a c : Char => ¬(a = '-' ∧ c = '-')) l) :
    List.Chain' (flip (fun a c : Char => ¬(a = '-' ∧ c = '-'))) l :=
  h.imp (fun _ _ hab h2 => hab ⟨h2.2, h2.1⟩)

theorem sanitizeSlug_inv (s : String) :
    (∀ c ∈ (sanitizeSlug s).data, isSlugChar c = true ∧ jsToLower c = c) ∧
    (∀ x, (sanitizeSlug s).data.head? = some x → x ≠ '-') ∧
    (∀ x, (sanitizeSlug s).data.getLast? = some x → x ≠ '-') ∧
    List.Chain' (fun a c => ¬(a = '-' ∧ c = '-')) (sanitizeSlug s).data := by
  unfold sanitizeSlug
  by_cases ht : jsTrim s.data = []
  · rw [if_pos ht]
    refine ⟨?_, ?_, ?_, ?_⟩ <;> simp
  · rw [if_neg ht]
    show (∀ c ∈ dropTrailing _ _, _) ∧ (∀ x, (dropTrailing _ _).head? = some x → _) ∧
      (∀ x, (dropTrailing _ _).getLast? = some x → _) ∧ List.Chain' _ (dropTrailing _ _)
    refine ⟨fun c hc => slug_list_chars hc, ?_, ?_, ?_⟩
    · intro x hx
      have h5 := head?_dropTrailing hx
      have := List.head?_dropWhile_not (fun c => c = '-')
        (replaceRuns (fun c => c = '-') '-'
          (replaceRuns (fun c => !(isSlugChar c)) '-'
            (replaceRuns jsIsSpaceSep '-' ((jsTrim s.data).map jsToLower))))
      rw [h5] at this
      simpa using this
    · intro x hx
      have := getLast?_dropTrailing_false hx
      simpa using this
    · have hchain : List.Chain' (fun a c => ¬(a = '-' ∧ c = '-'))
          (replaceRuns (fun c => c = '-') '-'
            (replaceRuns (fun c => !(isSlugChar c)) '-'
              (replaceRuns jsIsSpaceSep '-' ((jsTrim s.data).map jsToLower)))) :=
        chain'_replaceRunsAux (by decide) _ false
      have hstep5 := hchain.suffix (List.dropWhile_suffix (fun c => decide (c = '-')))
      have hrev := List.chain'_reverse.mpr (chain'_flip_of_symm hstep5)
      have hrevdrop := hrev.suffix (List.dropWhile_suffix (fun c => decide (c = '-')))
      exact List.chain'_reverse.mpr (chain'_flip_of_symm hrevdrop)

theorem dropWhile_eq_self_of_head {p : Char → Bool} :
    ∀ {l : List Char}, (∀ x, l.head? = some x → p x = false) → l.dropWhile p = l
  | [], _ => rfl
  | x :: xs, h => by simp [List.dropWhile_cons, h x rfl]

theorem dropTrailing_eq_self_of_getLast {p : Char → Bool} {l : List Char}
    (h : ∀ x, l.getLast? = some x → p x = false) : dropTrailing p l = l := by
  unfold dropTrailing
  rw [dropWhile_eq_self_of_head, List.reverse_reverse]
  intro x hx
  rw [List.head?_reverse] at hx
  exact h x hx

/-- A character list satisfying the `sanitizeSlug` shape invariant is a
fixed point of `sanitizeSlug`. -/
theorem sanitizeSlug_fix {l : List Char}
    (hchars : ∀ c ∈ l, isSlugChar c = true ∧ jsToLower c = c)
    (hhead : ∀ x, l.head? = some x → x ≠ '-')
    (hlast : ∀ x, l.getLast? = some x → x ≠ '-')
    (hchain : List.Chain' (fun a c => ¬(a = '-' ∧ c = '-')) l) :
    sanitizeSlug (String.mk l) = String.mk l := by
  have hdata : (String.mk l).data = l := rfl
  have hnospace : ∀ c ∈ l, jsIsSpace c = false :=
    fun c hc => slugChar_not_space (hchars c hc).1
  have htrim : jsTrim l = l := by
    unfold jsTrim
    rw [dropWhile_eq_self_of_head
        (fun x hx => hnospace x (List.mem_of_mem_head? hx))]
    exact dropTrailing_eq_self_of_getLast
      (fun x hx => hnospace x (List.mem_of_mem_getLast? hx))
  cases l with
  | nil => rfl
  | cons y ys =>
    unfold sanitizeSlug
    rw [hdata, htrim, if_neg (by simp)]
    have hlower : (y :: ys).map jsToLower = y :: ys := by
      rw [List.map_congr_left (fun c hc => (hchars c hc).2)]
      exact List.map_id' _
    have hsep : replaceRuns jsIsSpaceSep '-' (y :: ys) = y :: ys :=
      replaceRunsAux_id (fun c hc => slugChar_not_spaceSep (hchars c hc).1) false
    have hslug : replaceRuns (fun c => !(isSlugChar c)) '-' (y :: ys) = y :: ys :=
      replaceRunsAux_id (fun c hc => by rw [(hchars c hc).1]; rfl) false
    have hhyp : replaceRuns (fun c => c = '-') '-' (y :: ys) = y :: ys :=
      replaceRuns_id_of_chain' hchain
    have hdrop : (y :: ys).dropWhile (fun c => c = '-') = y :: ys :=
      dropWhile_eq_self_of_head
        (fun x hx => by simp only [decide_eq_false_iff_not]; exact hhead x hx)
    have hdroptr : dropTrailing (fun c => c = '-') (y :: ys) = y :: ys :=
      dropTrailing_eq_self_of_getLast
        (fun x hx => by simp only [decide_eq_false_iff_not]; exact hlast x hx)
    rw [hlower, hsep, hslug, hhyp, hdrop, hdroptr]

/-! ## Claim theorems -/

/-- C2 (amended): for every input string, the computed slug contains only
characters of the allowed class (letters, digits, `-`, `_`, `.` — with
letters/digits drawn from the modelled ASCII/CJK repertoires), every
character is fixed under lowercasing (no uppercase survives), no whitespace
or path separator survives, and the slug has no leading hyphen, no trailing
hyphen, and no two consecutive hyphens.  (The spec's wording "disallowed
punctuation is stripped" is amended to "replaced by hyphens", see the
counterexample.) -/
theorem sanitizeSlug_charset (s : String) :
    (∀ c ∈ (sanitizeSlug s).data,
      isSlugChar c = true ∧ jsToLower c = c ∧ jsIsSpaceSep c = false) ∧
    (sanitizeSlug s).data.head? ≠ some '-' ∧
    (sanitizeSlug s).data.getLast? ≠ some '-' ∧
    ¬ (['-', '-'] <:+: (sanitizeSlug s).data) := by
  obtain ⟨h1, h2, h3, h4⟩ := sanitizeSlug_inv s
  refine ⟨fun c hc => ⟨(h1 c hc).1, (h1 c hc).2, slugChar_not_spaceSep (h1 c hc).1⟩,
    ?_, ?_, ?_⟩
  · intro h
    exact h2 '-' h rfl
  · intro h
    exact h3 '-' h rfl
  · intro h
    have h5 := List.Chain'.infix h4 h
    rw [List.chain'_cons] at h5
    exact h5.1 ⟨rfl, rfl⟩

/-- Witness for C2: the slug of `"Hello World!"` contains `'h'`, which is
in the allowed class, lowercase, and not a separator. -/
theorem sanitizeSlug_charset_witness :
    isSlugChar 'h' = true ∧ jsToLower 'h' = 'h' ∧ jsIsSpaceSep 'h' = false :=
  (sanitizeSlug_charset "Hello World!").1 'h' (by decide)

/-- C2 counterexample: disallowed punctuation is not stripped — it is
replaced by a hyphen.  On `"a!b"` the generator produces `"a-b"`, while the
spec's "stripped" wording produces `"ab"`. -/
theorem sanitizeSlug_strip_counterexample :
    sanitizeSlug "a!b" = "a-b" ∧ sanitizeSlugStripPunct "a!b" = "ab" ∧
    sanitizeSlug "a!b" ≠ sanitizeSlugStripPunct "a!b" := by
  decide

/-- C10: `sanitizeSlug` is idempotent — slugging an already-sanitized slug
never changes it. -/
theorem sanitizeSlug_idempotent (s : String) :
    sanitizeSlug (sanitizeSlug s) = sanitizeSlug s := by
  obtain ⟨h1, h2, h3, h4⟩ := sanitizeSlug_inv s
  exact sanitizeSlug_fix h1 h2 h3 h4

/-- C7: a document titled `"Hello World!"` with no explicit slug and date
`2025-03-05` derives the output path `posts/2025/03/hello-world.html`
below the output directory: punctuation stripped at the edge, case
lowered, the space a hyphen, and the year/month prefix from the date. -/
theorem helloWorld_outputPath :
    outRelPath helloDoc = "posts/2025/03/hello-world.html" ∧
    deriveBaseSlug helloDoc = "hello-world" ∧
    yearOf helloDoc = "2025" ∧ monthOf helloDoc = "03" := by
  decide

/-- C1 counterexample: two distinct documents both titled `"Test"` on the
same date derive the *same* final output path — there is no incrementing
counter and the second slug is `test`, not `test-1`. -/
theorem samePath_collision_counterexample :
    testDocA ≠ testDocB ∧
    deriveBaseSlug testDocA = "test" ∧ deriveBaseSlug testDocB = "test" ∧
    outFilePath testDocA = outFilePath testDocB ∧
    outRelPath testDocB = "posts/2025/03/test.html" := by
  decide

/-- C1 (amended): the derived output path is a function of the base slug
and the year/month prefix alone, so documents agreeing on those collide on
the same output path (the later write overwrites the earlier one); no
counter suffix is ever appended. -/
theorem outPath_depends_only_on_slug_and_date (d1 d2 : DocInput)
    (h1 : deriveBaseSlug d1 = deriveBaseSlug d2) (h2 : yearOf d1 = yearOf d2)
    (h3 : monthOf d1 = monthOf d2) : outFilePath d1 = outFilePath d2 := by
  unfold outFilePath outRelPath slugSegments
  rw [h1, h2, h3]

/-- Witness for C1's amended theorem at the two `"Test"` documents. -/
theorem outPath_depends_witness :
    deriveBaseSlug testDocA = deriveBaseSlug testDocB ∧
    yearOf testDocA = yearOf testDocB ∧ monthOf testDocA = monthOf testDocB ∧
    outFilePath testDocA = outFilePath testDocB :=
  ⟨by decide, by decide, by decide,
    outPath_depends_only_on_slug_and_date testDocA testDocB (by decide) (by decide)
      (by decide)⟩

/-- C8 counterexample: a document whose slug source and filename stem both
sanitize to the empty string falls back to the bare slug `post` — four
characters, with no index number appended (any `post` + index would be
strictly longer). -/
theorem post_fallback_counterexample :
    deriveBaseSlug punctDoc = "post" ∧ (deriveBaseSlug punctDoc).length = 4 := by
  decide

/-- C8 (amended): when both the slug source and the filename stem sanitize
to the empty string, the derived slug is the literal `post` (no index
number). -/
theorem empty_slug_falls_back_to_post (doc : DocInput)
    (h1 : sanitizeSlug (slugSourceOf doc) = "")
    (h2 : sanitizeSlug (stemOf doc.fileName) = "") :
    deriveBaseSlug doc = "post" := by
  unfold deriveBaseSlug fallbackSlugOf
  rw [h1, h2]
  rfl

/-- Witness for C8's amended theorem at the punctuation-only document. -/
theorem empty_slug_fallback_witness :
    sanitizeSlug (slugSourceOf punctDoc) = "" ∧
    sanitizeSlug (stemOf punctDoc.fileName) = "" ∧
    deriveBaseSlug punctDoc = "post" :=
  ⟨by decide, by decide,
    empty_slug_falls_back_to_post punctDoc (by decide) (by decide)⟩

/-! ## Effective-date facts (C4) -/

/-- Closed form of the effective sort key: the first truthy field of
`date` / `date created` / `date modified` is parsed; a missing chain, an
unparseable value, or a parse result of exactly 0 falls back to the file
modification time. -/
theorem effectiveDateValue_eq (doc : DocInput) :
    effectiveDateValue doc =
      (let d := jsOr doc.fm.date (jsOr doc.fm.dateCreated doc.fm.dateModified)
       if d = "" then doc.mtimeMs
       else
         match jsParseDateMs d with
         | some t => if t = 0 then doc.mtimeMs else t
         | none => doc.mtimeMs) := by
  unfold effectiveDateValue effectiveDate jsParseDateMs
  simp only [normalizeMeta]
  by_cases h0 : jsOr doc.fm.date (jsOr doc.fm.dateCreated doc.fm.dateModified) = ""
  · simp [h0]
  · cases hp : parseISODate (jsOr doc.fm.date (jsOr doc.fm.dateCreated doc.fm.dateModified)) with
    | none => simp [h0, hp]
    | some ymd =>
      obtain ⟨y, m, d⟩ := ymd
      by_cases hz : daysSinceEpoch y m d * 86400000 = 0
      · simp [h0, hp, hz]
      · simp [h0, hp, hz]

/-- C4 counterexample: for a document carrying only a `date modified`
field, the effective sort key comes from parsing `date modified` — not
from the file modification time, as the claim's stated precedence
(`date` → `date created` → mtime) would require. -/
theorem date_modified_precedence_counterexample :
    effectiveDateValue dmOnlyDoc = (jsParseDateMs "2020-05-06").getD 0 ∧
    (jsParseDateMs "2020-05-06").getD 0 ≠ 0 ∧
    effectiveDateValue dmOnlyDoc ≠ dmOnlyDoc.mtimeMs := by
  decide

/-- C4 (amended): the effective date is chosen by the precedence `date`,
then `date created`, then `date modified`, then the file modification
time; when the first present field is unparseable (or parses to exactly 0),
the sort key falls back to the file modification time, so every document
receives a deterministic numeric key and aggregation never fails. -/
theorem effective_date_precedence :
    (∀ doc : DocInput, doc.fm.date ≠ "" →
      effectiveDateValue doc =
        (match jsParseDateMs doc.fm.date with
         | some t => if t = 0 then doc.mtimeMs else t
         | none => doc.mtimeMs)) ∧
    (∀ doc : DocInput, doc.fm.date = "" → doc.fm.dateCreated ≠ "" →
      effectiveDateValue doc =
        (match jsParseDateMs doc.fm.dateCreated with
         | some t => if t = 0 then doc.mtimeMs else t
         | none => doc.mtimeMs)) ∧
    (∀ doc : DocInput, doc.fm.date = "" → doc.fm.dateCreated = "" →
      doc.fm.dateModified ≠ "" →
      effectiveDateValue doc =
        (match jsParseDateMs doc.fm.dateModified with
         | some t => if t = 0 then doc.mtimeMs else t
         | none => doc.mtimeMs)) ∧
    (∀ doc : DocInput, doc.fm.date = "" → doc.fm.dateCreated = "" →
      doc.fm.dateModified = "" → effectiveDateValue doc = doc.mtimeMs) := by
  refine ⟨?_, ?_, ?_, ?_⟩
  · intro doc h
    rw [effectiveDateValue_eq]
    simp [jsOr, h]
  · intro doc h1 h2
    rw [effectiveDateValue_eq]
    simp [jsOr, h1, h2]
  · intro doc h1 h2 h3
    rw [effectiveDateValue_eq]
    simp [jsOr, h1, h2, h3]
  · intro doc h1 h2 h3
    rw [effectiveDateValue_eq]
    simp [jsOr, h1, h2, h3]

/-- Witness for C4's amended theorem: the `date modified`-only document's
key comes from that field's parse. -/
theorem effective_date_precedence_witness :
    dmOnlyDoc.fm.date = "" ∧ dmOnlyDoc.fm.dateCreated = "" ∧
    dmOnlyDoc.fm.dateModified ≠ "" ∧
    effectiveDateValue dmOnlyDoc =
      (match jsParseDateMs dmOnlyDoc.fm.dateModified with
       | some t => if t = 0 then dmOnlyDoc.mtimeMs else t
       | none => dmOnlyDoc.mtimeMs) :=
  ⟨rfl, rfl, by decide,
    effective_date_precedence.2.2.1 dmOnlyDoc rfl rfl (by decide)⟩

/-! ## Template-substitution facts (C3) -/

/-- A dotted path that resolves to `undefined`, `null`, or the
empty-string fallthrough substitutes as the empty string. -/
theorem resolvePath_of_missing (vars : List (String × JSVal)) (key : String)
    (h : resolveVal vars (splitOnChar '.' key) = .undefined ∨
      resolveVal vars (splitOnChar '.' key) = .nullv ∨
      resolveVal vars (splitOnChar '.' key) = .str "") :
    resolvePath vars key = "" := by
  unfold resolvePath
  rcases h with h | h | h <;> (rw [h]; try rfl)

/-- C3: substitution never throws and replaces unresolved keys by the
empty string — in general for any key whose dotted-path resolution comes
out `undefined`/`null`/fallthrough, and in particular `{{author.bio}}`
over any context missing that path renders to `""` (not the literal
placeholder); the pass is single and non-recursive: a substituted value
containing `{{b}}` is not rescanned. -/
theorem renderTemplate_missing_key :
    (∀ (vars : List (String × JSVal)) (key : String),
      (resolveVal vars (splitOnChar '.' key) = .undefined ∨
       resolveVal vars (splitOnChar '.' key) = .nullv ∨
       resolveVal vars (splitOnChar '.' key) = .str "") →
      resolvePath vars key = "") ∧
    (∀ vars : List (String × JSVal),
      (resolveVal vars ["author", "bio"] = .undefined ∨
       resolveVal vars ["author", "bio"] = .nullv ∨
       resolveVal vars ["author", "bio"] = .str "") →
      renderTemplate "{{author.bio}}" vars = "" ∧
      renderTemplate "{{author.bio}}" vars ≠ "{{author.bio}}") ∧
    renderTemplate "{{a}}" [("a", .str "{{b}}"), ("b", .str "Z")] = "{{b}}" := by
  refine ⟨fun vars key h => resolvePath_of_missing vars key h, ?_, by decide⟩
  intro vars h
  have hsplit : splitOnChar '.' "author.bio" = ["author", "bio"] := by decide
  have h1 : renderTemplate "{{author.bio}}" vars =
      String.mk ((resolvePath vars "author.bio").data ++ []) := rfl
  rw [List.append_nil] at h1
  have h2 : resolvePath vars "author.bio" = "" :=
    resolvePath_of_missing vars "author.bio" (hsplit ▸ h)
  constructor
  · rw [h1]
    show resolvePath vars "author.bio" = ""
    exact h2
  · rw [h1]
    show resolvePath vars "author.bio" ≠ "{{author.bio}}"
    rw [h2]
    decide

/-- Witness for C3 at the empty context (where the path falls through to
the empty string). -/
theorem renderTemplate_missing_key_witness :
    renderTemplate "{{author.bio}}" [] = "" ∧
    renderTemplate "{{author.bio}}" [] ≠ "{{author.bio}}" :=
  renderTemplate_missing_key.2.1 [] (Or.inr (Or.inr rfl))

/-! ## Sorting facts (C5) -/

theorem mem_insertDescBy {α : Type} (key : α → Nat) (a x : α) :
    ∀ (l : List α), x ∈ insertDescBy key a l ↔ x = a ∨ x ∈ l := by
  intro l
  induction l with
  | nil => simp [insertDescBy]
  | cons y ys ih =>
    unfold insertDescBy
    by_cases h : key a < key y
    · rw [if_pos h]
      simp only [List.mem_cons, ih]
      tauto
    · rw [if_neg h]
      simp [List.mem_cons]

theorem mem_sortDescBy {α : Type} (key : α → Nat) (x : α) :
    ∀ (l : List α), x ∈ sortDescBy key l ↔ x ∈ l := by
  intro l
  induction l with
  | nil => simp [sortDescBy]
  | cons y ys ih =>
    show x ∈ insertDescBy key y (sortDescBy key ys) ↔ _
    rw [mem_insertDescBy, ih]
    simp

theorem pairwise_insertDescBy {α : Type} (key : α → Nat) (a : α) {l : List α}
    (h : List.Pairwise (fun u v => key v ≤ key u) l) :
    List.Pairwise (fun u v => key v ≤ key u) (insertDescBy key a l) := by
  induction l with
  | nil => simp [insertDescBy]
  | cons y ys ih =>
    unfold insertDescBy
    by_cases hlt : key a < key y
    · rw [if_pos hlt]
      rw [List.pairwise_cons] at h ⊢
      refine ⟨?_, ih h.2⟩
      intro z hz
      rcases (mem_insertDescBy key a z ys).mp hz with rfl | hz2
      · omega
      · exact h.1 z hz2
    · rw [if_neg hlt]
      rw [List.pairwise_cons] at h
      rw [List.pairwise_cons]
      refine ⟨?_, List.pairwise_cons.mpr h⟩
      intro z hz
      rcases List.mem_cons.mp hz with rfl | hz2
      · omega
      · have := h.1 z hz2
        omega

theorem pairwise_sortDescBy {α : Type} (key : α → Nat) (l : List α) :
    List.Pairwise (fun u v => key v ≤ key u) (sortDescBy key l) := by
  induction l with
  | nil => simp [sortDescBy]
  | cons y ys ih => exact pairwise_insertDescBy key y ih

/-! ## Year-map facts (C5) -/

theorem mem_addToBucket_self (y : String) (e : ListEntry) :
    ∀ (m : List (String × List ListEntry)),
      ∃ b, (y, b) ∈ addToBucket y e m ∧ e ∈ b := by
  intro m
  induction m with
  | nil => exact ⟨[e], by simp [addToBucket]⟩
  | cons g gs ih =>
    obtain ⟨k, v⟩ := g
    unfold addToBucket
    by_cases h : k = y
    · subst h
      exact ⟨v ++ [e], by simp⟩
    · rw [if_neg h]
      obtain ⟨b, hb1, hb2⟩ := ih
      exact ⟨b, List.mem_cons_of_mem _ hb1, hb2⟩

theorem mem_addToBucket_mono {k y : String} {v : List ListEntry} {x e : ListEntry} :
    ∀ {m : List (String × List ListEntry)}, (k, v) ∈ m → x ∈ v →
      ∃ v2, (k, v2) ∈ addToBucket y e m ∧ x ∈ v2 := by
  intro m
  induction m with
  | nil => intro h; simp at h
  | cons g gs ih =>
    intro hm hx
    obtain ⟨k2, v2⟩ := g
    unfold addToBucket
    rcases List.mem_cons.mp hm with heq | htail
    · obtain ⟨hk, hv⟩ := Prod.mk.injEq .. ▸ heq
      subst hk
      subst hv
      by_cases h : k = y
      · subst h
        exact ⟨v ++ [e], by simp, List.mem_append_left _ hx⟩
      · rw [if_neg h]
        exact ⟨v, List.mem_cons_self _ _, hx⟩
    · by_cases h : k2 = y
      · subst h
        rw [if_pos rfl]
        exact ⟨v, List.mem_cons_of_mem _ htail, hx⟩
      · rw [if_neg h]
        obtain ⟨v3, hv3, hx3⟩ := ih htail hx
        exact ⟨v3, List.mem_cons_of_mem _ hv3, hx3⟩

theorem addToBucket_pred {Q : String → ListEntry → Prop} {y : String} {e : ListEntry}
    (hQ : Q y e) :
    ∀ {m : List (String × List ListEntry)},
      (∀ g ∈ m, ∀ x ∈ g.2, Q g.1 x) →
      ∀ g ∈ addToBucket y e m, ∀ x ∈ g.2, Q g.1 x := by
  intro m
  induction m with
  | nil =>
    intro _ g hg x hx
    simp [addToBucket] at hg
    subst hg
    simp at hx
    subst hx
    exact hQ
  | cons g2 gs ih =>
    intro hm g hg x hx
    obtain ⟨k2, v2⟩ := g2
    unfold addToBucket at hg
    by_cases h : k2 = y
    · subst h
      rw [if_pos rfl] at hg
      rcases List.mem_cons.mp hg with heq | htail
      · subst heq
        rcases List.mem_append.mp hx with hx2 | hx2
        · exact hm (k2, v2) (List.mem_cons_self _ _) x hx2
        · simp at hx2
          subst hx2
          exact hQ
      · exact hm g (List.mem_cons_of_mem _ htail) x hx
    · rw [if_neg h] at hg
      rcases List.mem_cons.mp hg with heq | htail
      · subst heq
        exact hm (k2, v2) (List.mem_cons_self _ _) x hx
      · exact ih (fun g3 hg3 => hm g3 (List.mem_cons_of_mem _ hg3)) g htail x hx

theorem byYearMap_fold_pred :
    ∀ (l : List ListEntry) (acc : List (String × List ListEntry)),
      (∀ g ∈ acc, ∀ x ∈ g.2, entryYearKey x = some g.1) →
      ∀ g ∈ List.foldl
          (fun m e =>
            match entryYearKey e with
            | none => m
            | some y => addToBucket y e m)
          acc l,
        ∀ x ∈ g.2, entryYearKey x = some g.1 := by
  intro l
  induction l with
  | nil => intro acc h; simpa using h
  | cons e es ih =>
    intro acc h
    rw [List.foldl_cons]
    cases hk : entryYearKey e with
    | none =>
      simp only [hk]
      exact ih acc h
    | some y =>
      simp only [hk]
      exact ih _ (fun g hg x hx => addToBucket_pred (Q := fun k x2 => entryYearKey x2 = some k) hk h g hg x hx)

theorem byYearMap_pred (entries : List ListEntry) :
    ∀ g ∈ byYearMap entries, ∀ x ∈ g.2, entryYearKey x = some g.1 :=
  byYearMap_fold_pred entries [] (by simp)

theorem byYearMap_fold_mono :
    ∀ (l : List ListEntry) (acc : List (String × List ListEntry)) {y : String}
      {b : List ListEntry} {e : ListEntry}, (y, b) ∈ acc → e ∈ b →
      ∃ b2, (y, b2) ∈ List.foldl
          (fun m e2 =>
            match entryYearKey e2 with
            | none => m
            | some y2 => addToBucket y2 e2 m)
          acc l ∧ e ∈ b2 := by
  intro l
  induction l with
  | nil => intro acc y b e hb he; exact ⟨b, by simpa using hb, he⟩
  | cons e2 es ih =>
    intro acc y b e hb he
    rw [List.foldl_cons]
    cases hk : entryYearKey e2 with
    | none =>
      simp only [hk]
      exact ih acc hb he
    | some y2 =>
      simp only [hk]
      obtain ⟨b2, hb2, he2⟩ := mem_addToBucket_mono hb he
      exact ih _ hb2 he2

theorem byYearMap_mem_fold :
    ∀ (l : List ListEntry) (acc : List (String × List ListEntry)) {e : ListEntry}
      {y : String}, e ∈ l → entryYearKey e = some y →
      ∃ b, (y, b) ∈ List.foldl
          (fun m e2 =>
            match entryYearKey e2 with
            | none => m
            | some y2 => addToBucket y2 e2 m)
          acc l ∧ e ∈ b := by
  intro l
  induction l with
  | nil => intro acc e y he; simp at he
  | cons e2 es ih =>
    intro acc e y he hk
    rw [List.foldl_cons]
    rcases List.mem_cons.mp he with rfl | htail
    · rw [hk]
      obtain ⟨b, hb, heb⟩ := mem_addToBucket_self y e acc
      exact byYearMap_fold_mono es _ hb heb
    · cases hk2 : entryYearKey e2 with
      | none =>
        simp only [hk2]
        exact ih acc htail hk
      | some y2 =>
        simp only [hk2]
        exact ih _ htail hk

theorem byYearMap_mem_of {entries : List ListEntry} {e : ListEntry} {y : String}
    (he : e ∈ entries) (hk : entryYearKey e = some y) :
    ∃ b, (y, b) ∈ byYearMap entries ∧ e ∈ b :=
  byYearMap_mem_fold entries [] he hk

theorem joinSep_decomp {α : Type} (sep : String) (f : α → String) :
    ∀ (l : List α) (e : α), e ∈ l →
      ∃ pre suf : List Char,
        (joinSep sep (l.map f)).data = pre ++ (f e).data ++ suf := by
  intro l
  induction l with
  | nil => intro e he; simp at he
  | cons x xs ih =>
    intro e he
    rcases List.mem_cons.mp he with rfl | htail
    · cases xs with
      | nil => exact ⟨[], [], by simp [joinSep]⟩
      | cons x2 xs2 =>
        refine ⟨[], (sep ++ joinSep sep ((x2 :: xs2).map f)).data, ?_⟩
        show (joinSep sep (f e :: f x2 :: xs2.map f)).data = _
        simp [joinSep, String.data_append, List.append_assoc]
    · cases xs with
      | nil => simp at htail
      | cons x2 xs2 =>
        obtain ⟨pre, suf, hps⟩ := ih e htail
        refine ⟨(f x ++ sep).data ++ pre, suf, ?_⟩
        show (joinSep sep (f x :: f x2 :: xs2.map f)).data = _
        have hjoin : joinSep sep (f x :: f x2 :: xs2.map f) =
            f x ++ sep ++ joinSep sep (f x2 :: xs2.map f) := rfl
        rw [hjoin]
        simp only [String.data_append]
        rw [show ((x2 :: xs2).map f) = f x2 :: xs2.map f from rfl] at hps
        rw [hps]
        simp [List.append_assoc]

/-- C5: the archive builder excludes exactly the entries whose date is
empty or unparseable from the year grouping (every entry still appears in
the flat index listing), sorts year groups descending, sorts the entries
of each group descending by their numeric date key, and renders each group
with a count badge equal to the group's size. -/
theorem archive_grouping (entries : List ListEntry) :
    (∀ e ∈ entries,
      (∃ g ∈ archiveGroups entries, e ∈ g.2) ↔ entryYearKey e ≠ none) ∧
    List.Pairwise (fun g1 g2 => yearNum g2.1 ≤ yearNum g1.1)
      (archiveGroups entries) ∧
    (∀ g ∈ archiveGroups entries,
      List.Pairwise (fun a b : ListEntry => b.dateValue ≤ a.dateValue) g.2) ∧
    (∀ g ∈ archiveGroups entries, ∃ pre suf : String,
      renderArchiveGroup g = pre ++ toString g.2.length ++ suf) ∧
    (∀ e ∈ entries, ∃ pre suf : List Char,
      (indexItemsHtml entries).data = pre ++ (renderIndexItem e).data ++ suf) := by
  refine ⟨?_, ?_, ?_, ?_, ?_⟩
  · intro e he
    constructor
    · rintro ⟨g, hg, heg⟩
      obtain ⟨g0, hg0, rfl⟩ := List.mem_map.mp hg
      have he0 : e ∈ g0.2 := (mem_sortDescBy _ e _).mp heg
      have hm : g0 ∈ byYearMap entries :=
        (mem_sortDescBy _ g0 _).mp hg0
      rw [byYearMap_pred entries g0 hm e he0]
      simp
    · intro hne
      cases hk : entryYearKey e with
      | none => exact absurd hk hne
      | some y =>
        obtain ⟨b, hb, heb⟩ := byYearMap_mem_of he hk
        refine ⟨(y, sortDescBy (fun e2 => e2.dateValue) b), ?_, ?_⟩
        · exact List.mem_map_of_mem _ ((mem_sortDescBy _ _ _).mpr hb)
        · exact (mem_sortDescBy _ e _).mpr heb
  · exact List.pairwise_map.mpr (pairwise_sortDescBy _ _)
  · intro g hg
    obtain ⟨g0, _, rfl⟩ := List.mem_map.mp hg
    exact pairwise_sortDescBy _ _
  · intro g _
    refine ⟨"<div class=\"archive-year\">\n" ++ "  <h2 class=\"archive-year__title\">" ++
      g.1 ++ " <span class=\"archive-year__count\">(",
      ")</span></h2>\n" ++ "  <div class=\"archive-list\">\n" ++
      String.join (g.2.map renderArchiveItem) ++ "  </div>\n" ++ "</div>\n", ?_⟩
    simp [renderArchiveGroup, String.append_assoc]
  · intro e he
    exact joinSep_decomp "\n" renderIndexItem entries e he

/-- Witness for C5 at a two-entry list: the parseable-dated entry is in a
year group; the unparseable one has no year key. -/
theorem archive_grouping_witness :
    (∃ g ∈ archiveGroups [exEntryGood, exEntryBad], exEntryGood ∈ g.2) ∧
    entryYearKey exEntryBad = none :=
  ⟨((archive_grouping [exEntryGood, exEntryBad]).1 exEntryGood (by decide)).mpr
      (by decide),
   by decide⟩

/-- C6: with zero input documents the build completes (the modelled
pipeline is a total function and yields the four site files), the archive
carries zero year groups (empty group list, empty groups fragment), and
the "no posts" message (`暂无文章`) appears both in the README listing
(real code) and in the index page rendered through the spec-modelled
listing template. -/
theorem empty_build_no_posts :
    archiveGroups [] = [] ∧
    buildArchiveGroups [] = "" ∧
    ("暂无文章".data <:+: (buildReadmeContent []).data) ∧
    ("暂无文章".data <:+: (indexPageHtml tplsModel "" []).data) ∧
    (buildSite (fun b => b) tplsModel "" []).length = 4 := by
  set_option maxRecDepth 4096 in decide

theorem docInput_fields_eq {a b : DocInput} (h1 : a.fileName = b.fileName)
    (h2 : a.fm = b.fm) (h3 : a.body = b.body) (h4 : a.mtimeMs = b.mtimeMs) :
    a = b := by
  cases a
  cases b
  simp_all

/-- C9: re-running the pipeline on an unchanged document set (identical
metadata, body, filename, and modification time for each document, given
the same templates, renderer, and environment) produces identical output
paths and identical rendered content byte-for-byte — the build is a pure
function of these inputs with no cross-run state. -/
theorem build_deterministic (mdRender : String → String) (tpls : Templates)
    (env : String) (docs1 docs2 : List DocInput)
    (h : List.Forall₂
      (fun a b : DocInput =>
        a.fileName = b.fileName ∧ a.fm = b.fm ∧ a.body = b.body ∧
        a.mtimeMs = b.mtimeMs)
      docs1 docs2) :
    (buildSite mdRender tpls env docs1).map Prod.fst =
      (buildSite mdRender tpls env docs2).map Prod.fst ∧
    buildSite mdRender tpls env docs1 = buildSite mdRender tpls env docs2 := by
  have hdocs : docs1 = docs2 := by
    induction h with
    | nil => rfl
    | cons hab _ ih =>
      obtain ⟨h1, h2, h3, h4⟩ := hab
      rw [ih, docInput_fields_eq h1 h2 h3 h4]
  rw [hdocs]
  exact ⟨rfl, rfl⟩

/-- Witness for C9: two runs over the same single-document corpus agree. -/
theorem build_deterministic_witness :
    buildSite (fun b => b) tplsModel "" [helloDoc] =
      buildSite (fun b => b) tplsModel "" [helloDoc] :=
  (build_deterministic (fun b => b) tplsModel "" [helloDoc] [helloDoc]
    (List.Forall₂.cons ⟨rfl, rfl, rfl, rfl⟩ List.Forall₂.nil)).2
